import Mathlib

/-!
Shallow embedding of the tic-tac-toe game core:
win detection (`checkWinner`), the board tap handler (`handleCellTap`,
`tapAt`, `resetGameBoard`) from `src/components/GameBoard.tsx`, the
round/match bookkeeping (`handleGameWon`, `handleGameTie`,
`matchCompleteEffect`, `saveMatchToLeaderboard`) from
`src/app/(tabs)/tictactoe.tsx`, and the settings symbol handlers from
`src/app/(tabs)/settings.tsx`.
Cells hold `Option String` (`null` or the player's symbol string); JS
truthiness of a cell (`null` and `""` are falsy) is modelled by
`cellTruthy`.
-/

namespace TicTacToe

abbrev Symbol := String

abbrev CellValue := Option Symbol

abbrev Board := List (List CellValue)

/-- `boardState[i][j]`: out-of-range reads yield `none` (the callers in the
source only read in-range cells). -/
def cellAt (b : Board) (i j : Nat) : CellValue := (b.getD i []).getD j none

/-- JS truthiness of a cell value: `null` and the empty string are falsy. -/
def cellTruthy (c : CellValue) : Bool :=
  match c with
  | none => false
  | some v => v ≠ ""

/-- The start offsets `0 .. gridSize - winLength` of the scan loops
(`for (j = 0; j <= gridSize - winLength; j++)`); empty when
`winLength > gridSize` (the JS bound is then negative). -/
def startRange (n w : Nat) : List Nat :=
  if w ≤ n then List.range (n - w + 1) else []

/-- Cells of a horizontal run: `line.push([i, j + k])`. -/
def rowLine (w i j : Nat) : List (Nat × Nat) :=
  (List.range w).map fun k => (i, j + k)

/-- Cells of a vertical run: `line.push([i + k, j])`. -/
def colLine (w i j : Nat) : List (Nat × Nat) :=
  (List.range w).map fun k => (i + k, j)

/-- Cells of a ↘ diagonal run: `line.push([i + k, j + k])`. -/
def diagLine (w i j : Nat) : List (Nat × Nat) :=
  (List.range w).map fun k => (i + k, j + k)

/-- Cells of a ↙ diagonal run: `line.push([i + k, j - k])`. -/
def antiLine (w i j : Nat) : List (Nat × Nat) :=
  (List.range w).map fun k => (i + k, j - k)

/-- One iteration body of a scan loop: take `firstCell = boardState[i][j]`;
if it is truthy and every cell of the candidate run equals it, report the
winner and the line. -/
def tryLineAt (b : Board) (i j : Nat) (cells : List (Nat × Nat)) :
    Option (Symbol × List (Nat × Nat)) :=
  match cellAt b i j with
  | none => none
  | some p =>
    if p = "" then none
    else if cells.all fun c => cellAt b c.1 c.2 = some p then some (p, cells)
    else none

/-- The row scan of `checkWinner` (first double loop). -/
def scanRows (n w : Nat) (b : Board) : Option (Symbol × List (Nat × Nat)) :=
  (List.range n).findSome? fun i =>
    (startRange n w).findSome? fun j => tryLineAt b i j (rowLine w i j)

/-- The column scan of `checkWinner` (second double loop). -/
def scanCols (n w : Nat) (b : Board) : Option (Symbol × List (Nat × Nat)) :=
  (startRange n w).findSome? fun i =>
    (List.range n).findSome? fun j => tryLineAt b i j (colLine w i j)

/-- The ↘ diagonal scan of `checkWinner` (third double loop). -/
def scanDiag (n w : Nat) (b : Board) : Option (Symbol × List (Nat × Nat)) :=
  (startRange n w).findSome? fun i =>
    (startRange n w).findSome? fun j => tryLineAt b i j (diagLine w i j)

/-- The ↙ diagonal scan of `checkWinner` (fourth double loop; `j` runs
downward from `gridSize - 1` to `winLength - 1`). -/
def scanAnti (n w : Nat) (b : Board) : Option (Symbol × List (Nat × Nat)) :=
  (startRange n w).findSome? fun i =>
    ((startRange n w).map fun t => n - 1 - t).findSome? fun j =>
      tryLineAt b i j (antiLine w i j)

/-- `boardState.every(row => row.every(cell => cell !== null))`. -/
def isBoardFull (b : Board) : Bool :=
  b.all fun row => row.all fun c => c.isSome

/-- Result of `checkWinner`: the returned winner symbol together with the
`winningLine` it sets, the `'tie'` sentinel, or `null`. -/
inductive GameResult where
  | InProgress
  | Won (winner : Symbol) (line : List (Nat × Nat))
  | Tie
deriving Repr, DecidableEq

/-- `checkWinner` from `src/components/GameBoard.tsx`: rows, then columns,
then ↘ diagonals, then ↙ diagonals, then the full-board tie check. -/
def checkWinner (n w : Nat) (b : Board) : GameResult :=
  match scanRows n w b with
  | some (p, l) => .Won p l
  | none =>
    match scanCols n w b with
    | some (p, l) => .Won p l
    | none =>
      match scanDiag n w b with
      | some (p, l) => .Won p l
      | none =>
        match scanAnti n w b with
        | some (p, l) => .Won p l
        | none => if isBoardFull b then .Tie else .InProgress

/-- `Array(gridSize).fill(null).map(() => Array(gridSize).fill(null))`. -/
def emptyBoard (n : Nat) : Board :=
  List.replicate n (List.replicate n none)

/-- Spec-side notion (for the refinement statements of the claims): a run of
`w` equal non-empty symbols `p` exists in one of the four scan directions,
with the start offsets in the bounds the grid admits. -/
def runOfSym (b : Board) (n w : Nat) (p : Symbol) : Prop :=
  (∃ i j, i < n ∧ j + w ≤ n ∧ ∀ k < w, cellAt b i (j + k) = some p) ∨
  (∃ i j, i + w ≤ n ∧ j < n ∧ ∀ k < w, cellAt b (i + k) j = some p) ∨
  (∃ i j, i + w ≤ n ∧ j + w ≤ n ∧ ∀ k < w, cellAt b (i + k) (j + k) = some p) ∨
  (∃ i j, i + w ≤ n ∧ w ≤ j + 1 ∧ j < n ∧ ∀ k < w, cellAt b (i + k) (j - k) = some p)

/-- Spec-side notion: some run of `w` equal non-empty symbols exists. -/
def existsWinRun (b : Board) (n w : Nat) : Prop :=
  ∃ p, p ≠ "" ∧ runOfSym b n w p

theorem of_mem_startRange {n w j : Nat} (h : j ∈ startRange n w) : j + w ≤ n := by
  unfold startRange at h
  split at h
  · rw [List.mem_range] at h; omega
  · simp at h

theorem mem_startRange_iff {n w j : Nat} (hwn : w ≤ n) :
    j ∈ startRange n w ↔ j + w ≤ n := by
  unfold startRange
  rw [if_pos hwn, List.mem_range]
  omega

theorem mem_antiRange {n w j : Nat} (hw : 1 ≤ w)
    (h : j ∈ ((startRange n w).map fun t => n - 1 - t)) : w ≤ j + 1 ∧ j < n := by
  rw [List.mem_map] at h
  obtain ⟨t, ht, rfl⟩ := h
  have := of_mem_startRange ht
  omega

theorem mem_antiRange_iff {n w j : Nat} (hw : 1 ≤ w) (hwn : w ≤ n) :
    j ∈ ((startRange n w).map fun t => n - 1 - t) ↔ w ≤ j + 1 ∧ j < n := by
  constructor
  · exact mem_antiRange hw
  · intro ⟨h1, h2⟩
    rw [List.mem_map]
    exact ⟨n - 1 - j, (mem_startRange_iff hwn).mpr (by omega), by omega⟩

theorem tryLineAt_eq_some {b : Board} {i j : Nat} {cells : List (Nat × Nat)}
    {r : Symbol × List (Nat × Nat)} (h : tryLineAt b i j cells = some r) :
    ∃ p, cellAt b i j = some p ∧ p ≠ "" ∧
      (∀ c ∈ cells, cellAt b c.1 c.2 = some p) ∧ r = (p, cells) := by
  unfold tryLineAt at h
  split at h
  · exact absurd h (by simp)
  · next p heq =>
    split at h
    · exact absurd h (by simp)
    · next hp =>
      split at h
      · next hall =>
        refine ⟨p, heq, hp, ?_, by injection h with h; exact h.symm⟩
        intro c hc
        exact of_decide_eq_true (List.all_eq_true.mp hall c hc)
      · exact absurd h (by simp)

theorem tryLineAt_run_eq_none_iff (b : Board) (i j : Nat) (f : Nat → Nat × Nat)
    (w : Nat) (hw : 1 ≤ w) (hf : f 0 = (i, j)) :
    tryLineAt b i j ((List.range w).map f) = none ↔
      ¬ ∃ p, p ≠ "" ∧ ∀ k < w, cellAt b (f k).1 (f k).2 = some p := by
  constructor
  · intro h ⟨p, hp, hall⟩
    have h0 : cellAt b i j = some p := by
      have := hall 0 hw
      rwa [hf] at this
    unfold tryLineAt at h
    split at h
    · next heq => simp [h0] at heq
    · next q heq =>
      rw [h0] at heq
      injection heq with heq
      subst heq
      rw [if_neg hp] at h
      have hallb : ((List.range w).map f).all
          (fun c => decide (cellAt b c.1 c.2 = some p)) = true := by
        rw [List.all_eq_true]
        intro c hc
        rw [List.mem_map] at hc
        obtain ⟨k, hk, rfl⟩ := hc
        exact decide_eq_true (hall k (List.mem_range.mp hk))
      rw [if_pos hallb] at h
      exact absurd h (by simp)
  · intro h
    unfold tryLineAt
    split
    · rfl
    · next p heq =>
      by_cases hp : p = ""
      · rw [if_pos hp]
      · rw [if_neg hp]
        have hnall : ¬ ((List.range w).map f).all
            (fun c => decide (cellAt b c.1 c.2 = some p)) = true := by
          intro hall
          refine h ⟨p, hp, fun k hk => ?_⟩
          have hm : f k ∈ (List.range w).map f :=
            List.mem_map.mpr ⟨k, List.mem_range.mpr hk, rfl⟩
          exact of_decide_eq_true (List.all_eq_true.mp hall (f k) hm)
        rw [if_neg hnall]

theorem scanRows_eq_none_iff {n w : Nat} (b : Board) (hw : 1 ≤ w) (hwn : w ≤ n) :
    scanRows n w b = none ↔
      ¬ ∃ p, p ≠ "" ∧ ∃ i j, i < n ∧ j + w ≤ n ∧
        ∀ k < w, cellAt b i (j + k) = some p := by
  unfold scanRows
  rw [List.findSome?_eq_none_iff]
  constructor
  · intro h ⟨p, hp, i, j, hi, hj, hall⟩
    have hinner := h i (List.mem_range.mpr hi)
    rw [List.findSome?_eq_none_iff] at hinner
    have h2 := hinner j ((mem_startRange_iff hwn).mpr hj)
    unfold rowLine at h2
    rw [tryLineAt_run_eq_none_iff b i j _ w hw (by simp)] at h2
    exact h2 ⟨p, hp, hall⟩
  · intro h i _
    rw [List.findSome?_eq_none_iff]
    intro j hj
    unfold rowLine
    rw [tryLineAt_run_eq_none_iff b i j _ w hw (by simp)]
    intro ⟨p, hp, hall⟩
    by_cases hi : i < n
    · exact h ⟨p, hp, i, j, hi, of_mem_startRange hj, hall⟩
    · exact hi (List.mem_range.mp (by assumption))

theorem scanCols_eq_none_iff {n w : Nat} (b : Board) (hw : 1 ≤ w) (hwn : w ≤ n) :
    scanCols n w b = none ↔
      ¬ ∃ p, p ≠ "" ∧ ∃ i j, i + w ≤ n ∧ j < n ∧
        ∀ k < w, cellAt b (i + k) j = some p := by
  unfold scanCols
  rw [List.findSome?_eq_none_iff]
  constructor
  · intro h ⟨p, hp, i, j, hi, hj, hall⟩
    have hinner := h i ((mem_startRange_iff hwn).mpr hi)
    rw [List.findSome?_eq_none_iff] at hinner
    have h2 := hinner j (List.mem_range.mpr hj)
    unfold colLine at h2
    rw [tryLineAt_run_eq_none_iff b i j _ w hw (by simp)] at h2
    exact h2 ⟨p, hp, hall⟩
  · intro h i hi
    rw [List.findSome?_eq_none_iff]
    intro j hj
    unfold colLine
    rw [tryLineAt_run_eq_none_iff b i j _ w hw (by simp)]
    intro ⟨p, hp, hall⟩
    exact h ⟨p, hp, i, j, of_mem_startRange hi, List.mem_range.mp hj, hall⟩

theorem scanDiag_eq_none_iff {n w : Nat} (b : Board) (hw : 1 ≤ w) (hwn : w ≤ n) :
    scanDiag n w b = none ↔
      ¬ ∃ p, p ≠ "" ∧ ∃ i j, i + w ≤ n ∧ j + w ≤ n ∧
        ∀ k < w, cellAt b (i + k) (j + k) = some p := by
  unfold scanDiag
  rw [List.findSome?_eq_none_iff]
  constructor
  · intro h ⟨p, hp, i, j, hi, hj, hall⟩
    have hinner := h i ((mem_startRange_iff hwn).mpr hi)
    rw [List.findSome?_eq_none_iff] at hinner
    have h2 := hinner j ((mem_startRange_iff hwn).mpr hj)
    unfold diagLine at h2
    rw [tryLineAt_run_eq_none_iff b i j _ w hw (by simp)] at h2
    exact h2 ⟨p, hp, hall⟩
  · intro h i hi
    rw [List.findSome?_eq_none_iff]
    intro j hj
    unfold diagLine
    rw [tryLineAt_run_eq_none_iff b i j _ w hw (by simp)]
    intro ⟨p, hp, hall⟩
    exact h ⟨p, hp, i, j, of_mem_startRange hi, of_mem_startRange hj, hall⟩

theorem scanAnti_eq_none_iff {n w : Nat} (b : Board) (hw : 1 ≤ w) (hwn : w ≤ n) :
    scanAnti n w b = none ↔
      ¬ ∃ p, p ≠ "" ∧ ∃ i j, i + w ≤ n ∧ w ≤ j + 1 ∧ j < n ∧
        ∀ k < w, cellAt b (i + k) (j - k) = some p := by
  unfold scanAnti
  rw [List.findSome?_eq_none_iff]
  constructor
  · intro h ⟨p, hp, i, j, hi, hj1, hj2, hall⟩
    have hinner := h i ((mem_startRange_iff hwn).mpr hi)
    rw [List.findSome?_eq_none_iff] at hinner
    have h2 := hinner j ((mem_antiRange_iff hw hwn).mpr ⟨hj1, hj2⟩)
    unfold antiLine at h2
    rw [tryLineAt_run_eq_none_iff b i j _ w hw (by simp)] at h2
    exact h2 ⟨p, hp, hall⟩
  · intro h i hi
    rw [List.findSome?_eq_none_iff]
    intro j hj
    unfold antiLine
    rw [tryLineAt_run_eq_none_iff b i j _ w hw (by simp)]
    intro ⟨p, hp, hall⟩
    have hb := mem_antiRange hw hj
    exact h ⟨p, hp, i, j, of_mem_startRange hi, hb.1, hb.2, hall⟩

/-- The four scans all fail exactly when no winning run exists. -/
theorem scans_none_iff {n w : Nat} (b : Board) (hw : 1 ≤ w) (hwn : w ≤ n) :
    (scanRows n w b = none ∧ scanCols n w b = none ∧
     scanDiag n w b = none ∧ scanAnti n w b = none) ↔ ¬ existsWinRun b n w := by
  rw [scanRows_eq_none_iff b hw hwn, scanCols_eq_none_iff b hw hwn,
      scanDiag_eq_none_iff b hw hwn, scanAnti_eq_none_iff b hw hwn]
  unfold existsWinRun runOfSym
  constructor
  · rintro ⟨h1, h2, h3, h4⟩ ⟨p, hp, hrun⟩
    rcases hrun with h | h | h | h
    · exact h1 ⟨p, hp, h⟩
    · exact h2 ⟨p, hp, h⟩
    · exact h3 ⟨p, hp, h⟩
    · obtain ⟨i, j, ha, hb, hc, hd⟩ := h
      exact h4 ⟨p, hp, i, j, ha, hb, hc, hd⟩
  · intro h
    refine ⟨?_, ?_, ?_, ?_⟩
    · rintro ⟨p, hp, hr⟩; exact h ⟨p, hp, Or.inl hr⟩
    · rintro ⟨p, hp, hr⟩; exact h ⟨p, hp, Or.inr (Or.inl hr)⟩
    · rintro ⟨p, hp, hr⟩; exact h ⟨p, hp, Or.inr (Or.inr (Or.inl hr))⟩
    · rintro ⟨p, hp, i, j, ha, hb, hc, hd⟩
      exact h ⟨p, hp, Or.inr (Or.inr (Or.inr ⟨i, j, ha, hb, hc, hd⟩))⟩

theorem checkWinner_of_scans_none {n w : Nat} {b : Board}
    (h1 : scanRows n w b = none) (h2 : scanCols n w b = none)
    (h3 : scanDiag n w b = none) (h4 : scanAnti n w b = none) :
    checkWinner n w b = if isBoardFull b then GameResult.Tie else .InProgress := by
  unfold checkWinner
  rw [h1, h2, h3, h4]

theorem checkWinner_rows_some {n w : Nat} {b : Board} {p : Symbol}
    {l : List (Nat × Nat)} (hr : scanRows n w b = some (p, l)) :
    checkWinner n w b = .Won p l := by
  unfold checkWinner
  rw [hr]

theorem checkWinner_cols_some {n w : Nat} {b : Board} {p : Symbol}
    {l : List (Nat × Nat)} (h1 : scanRows n w b = none)
    (hr : scanCols n w b = some (p, l)) : checkWinner n w b = .Won p l := by
  unfold checkWinner
  rw [h1, hr]

theorem checkWinner_diag_some {n w : Nat} {b : Board} {p : Symbol}
    {l : List (Nat × Nat)} (h1 : scanRows n w b = none)
    (h2 : scanCols n w b = none) (hr : scanDiag n w b = some (p, l)) :
    checkWinner n w b = .Won p l := by
  unfold checkWinner
  rw [h1, h2, hr]

theorem checkWinner_anti_some {n w : Nat} {b : Board} {p : Symbol}
    {l : List (Nat × Nat)} (h1 : scanRows n w b = none)
    (h2 : scanCols n w b = none) (h3 : scanDiag n w b = none)
    (hr : scanAnti n w b = some (p, l)) : checkWinner n w b = .Won p l := by
  unfold checkWinner
  rw [h1, h2, h3, hr]

theorem checkWinner_tie_elim {n w : Nat} {b : Board}
    (h : checkWinner n w b = .Tie) :
    scanRows n w b = none ∧ scanCols n w b = none ∧ scanDiag n w b = none ∧
    scanAnti n w b = none ∧ isBoardFull b = true := by
  cases hr : scanRows n w b with
  | some pl =>
    obtain ⟨p, l⟩ := pl
    rw [checkWinner_rows_some hr] at h
    exact absurd h (by simp)
  | none =>
  cases hc : scanCols n w b with
  | some pl =>
    obtain ⟨p, l⟩ := pl
    rw [checkWinner_cols_some hr hc] at h
    exact absurd h (by simp)
  | none =>
  cases hd : scanDiag n w b with
  | some pl =>
    obtain ⟨p, l⟩ := pl
    rw [checkWinner_diag_some hr hc hd] at h
    exact absurd h (by simp)
  | none =>
  cases ha : scanAnti n w b with
  | some pl =>
    obtain ⟨p, l⟩ := pl
    rw [checkWinner_anti_some hr hc hd ha] at h
    exact absurd h (by simp)
  | none =>
    rw [checkWinner_of_scans_none hr hc hd ha] at h
    split at h
    · next hf => exact ⟨rfl, rfl, rfl, rfl, hf⟩
    · exact absurd h (by simp)

/-- A reported win always comes with a run of `w` equal truthy symbols of the
reported winner, within the scan bounds. -/
theorem checkWinner_won_run {n w : Nat} {b : Board} {p : Symbol}
    {l : List (Nat × Nat)} (hw : 1 ≤ w) (h : checkWinner n w b = .Won p l) :
    p ≠ "" ∧ runOfSym b n w p := by
  cases hr : scanRows n w b with
  | some pl =>
    obtain ⟨p', l'⟩ := pl
    rw [checkWinner_rows_some hr] at h
    injection h with hp' hl'
    subst hp'; subst hl'
    obtain ⟨i, hi, hinner⟩ := List.exists_of_findSome?_eq_some hr
    obtain ⟨j, hj, htry⟩ := List.exists_of_findSome?_eq_some hinner
    obtain ⟨q, hq0, hqne, hqall, hqeq⟩ := tryLineAt_eq_some htry
    rw [Prod.ext_iff] at hqeq
    obtain ⟨hq1, -⟩ := hqeq
    subst hq1
    refine ⟨hqne, Or.inl ⟨i, j, List.mem_range.mp hi, of_mem_startRange hj,
      fun k hk => ?_⟩⟩
    refine hqall (i, j + k) ?_
    unfold rowLine
    exact List.mem_map.mpr ⟨k, List.mem_range.mpr hk, rfl⟩
  | none =>
  cases hc : scanCols n w b with
  | some pl =>
    obtain ⟨p', l'⟩ := pl
    rw [checkWinner_cols_some hr hc] at h
    injection h with hp' hl'
    subst hp'; subst hl'
    obtain ⟨i, hi, hinner⟩ := List.exists_of_findSome?_eq_some hc
    obtain ⟨j, hj, htry⟩ := List.exists_of_findSome?_eq_some hinner
    obtain ⟨q, hq0, hqne, hqall, hqeq⟩ := tryLineAt_eq_some htry
    rw [Prod.ext_iff] at hqeq
    obtain ⟨hq1, -⟩ := hqeq
    subst hq1
    refine ⟨hqne, Or.inr (Or.inl ⟨i, j, of_mem_startRange hi,
      List.mem_range.mp hj, fun k hk => ?_⟩)⟩
    refine hqall (i + k, j) ?_
    unfold colLine
    exact List.mem_map.mpr ⟨k, List.mem_range.mpr hk, rfl⟩
  | none =>
  cases hd : scanDiag n w b with
  | some pl =>
    obtain ⟨p', l'⟩ := pl
    rw [checkWinner_diag_some hr hc hd] at h
    injection h with hp' hl'
    subst hp'; subst hl'
    obtain ⟨i, hi, hinner⟩ := List.exists_of_findSome?_eq_some hd
    obtain ⟨j, hj, htry⟩ := List.exists_of_findSome?_eq_some hinner
    obtain ⟨q, hq0, hqne, hqall, hqeq⟩ := tryLineAt_eq_some htry
    rw [Prod.ext_iff] at hqeq
    obtain ⟨hq1, -⟩ := hqeq
    subst hq1
    refine ⟨hqne, Or.inr (Or.inr (Or.inl ⟨i, j, of_mem_startRange hi,
      of_mem_startRange hj, fun k hk => ?_⟩))⟩
    refine hqall (i + k, j + k) ?_
    unfold diagLine
    exact List.mem_map.mpr ⟨k, List.mem_range.mpr hk, rfl⟩
  | none =>
  cases ha : scanAnti n w b with
  | some pl =>
    obtain ⟨p', l'⟩ := pl
    rw [checkWinner_anti_some hr hc hd ha] at h
    injection h with hp' hl'
    subst hp'; subst hl'
    obtain ⟨i, hi, hinner⟩ := List.exists_of_findSome?_eq_some ha
    obtain ⟨j, hj, htry⟩ := List.exists_of_findSome?_eq_some hinner
    obtain ⟨q, hq0, hqne, hqall, hqeq⟩ := tryLineAt_eq_some htry
    rw [Prod.ext_iff] at hqeq
    obtain ⟨hq1, -⟩ := hqeq
    subst hq1
    have hjb := mem_antiRange hw hj
    refine ⟨hqne, Or.inr (Or.inr (Or.inr ⟨i, j, of_mem_startRange hi,
      hjb.1, hjb.2, fun k hk => ?_⟩))⟩
    refine hqall (i + k, j - k) ?_
    unfold antiLine
    exact List.mem_map.mpr ⟨k, List.mem_range.mpr hk, rfl⟩
  | none =>
    rw [checkWinner_of_scans_none hr hc hd ha] at h
    split at h <;> exact absurd h (by simp)

/-- Number of cells of `b` holding the symbol `p`. -/
def countSym (b : Board) (p : Symbol) : Nat :=
  (b.map fun row => row.countP fun c => c = some p).sum

theorem countP_ge_run (l : List CellValue) (p : Symbol) :
    ∀ j w, (∀ k < w, l.getD (j + k) none = some p) →
      w ≤ l.countP fun c => c = some p := by
  induction l with
  | nil =>
    intro j w h
    cases w with
    | zero => simp
    | succ w₀ =>
      have := h 0 (by omega)
      rw [List.getD_nil] at this
      exact absurd this (by simp)
  | cons a t ih =>
    intro j w h
    cases j with
    | zero =>
      cases w with
      | zero => simp
      | succ w₀ =>
        have ha : a = some p := by
          have := h 0 (by omega)
          rwa [List.getD_cons_zero] at this
        have ht : ∀ k < w₀, t.getD (0 + k) none = some p := by
          intro k hk
          have := h (k + 1) (by omega)
          rwa [show 0 + (k + 1) = k + 1 by omega, List.getD_cons_succ,
            show k = 0 + k by omega] at this
        have hrec := ih 0 w₀ ht
        rw [List.countP_cons]
        simp only [ha, decide_eq_true_eq, if_pos]
        omega
    | succ j₀ =>
      have ht : ∀ k < w, t.getD (j₀ + k) none = some p := by
        intro k hk
        have := h k hk
        rwa [show j₀ + 1 + k = (j₀ + k) + 1 by omega, List.getD_cons_succ] at this
      have hrec := ih j₀ w ht
      rw [List.countP_cons]
      omega

theorem countSym_cons (row : List CellValue) (rest : Board) (p : Symbol) :
    countSym (row :: rest) p =
      (row.countP fun c => c = some p) + countSym rest p := by
  simp [countSym]

/-- A run of `w` cells holding `p`, one per consecutive row (columns given by
`f`), forces at least `w` marks of `p` on the board. -/
theorem countSym_ge_col_run (b : Board) (p : Symbol) :
    ∀ (f : Nat → Nat) (i w : Nat),
      (∀ k < w, cellAt b (i + k) (f k) = some p) → w ≤ countSym b p := by
  induction b with
  | nil =>
    intro f i w h
    cases w with
    | zero => simp
    | succ w₀ =>
      have := h 0 (by omega)
      rw [show cellAt [] (i + 0) (f 0) = none from rfl] at this
      exact absurd this (by simp)
  | cons row rest ih =>
    intro f i w h
    cases i with
    | zero =>
      cases w with
      | zero => simp
      | succ w₀ =>
        have h0 : row.getD (f 0) none = some p := by
          have := h 0 (by omega)
          unfold cellAt at this
          rwa [show (0 : Nat) + 0 = 0 from rfl, List.getD_cons_zero] at this
        have h1 : 1 ≤ row.countP fun c => c = some p := by
          refine countP_ge_run row p (f 0) 1 fun k hk => ?_
          have hk0 : k = 0 := by omega
          subst hk0
          rwa [show f 0 + 0 = f 0 from rfl]
        have ht : ∀ k < w₀, cellAt rest (0 + k) ((fun k => f (k + 1)) k) = some p := by
          intro k hk
          have := h (k + 1) (by omega)
          unfold cellAt at this ⊢
          simp only [Nat.zero_add, List.getD_cons_succ] at this ⊢
          exact this
        have hrec := ih (fun k => f (k + 1)) 0 w₀ ht
        rw [countSym_cons]
        omega
    | succ i₀ =>
      have ht : ∀ k < w, cellAt rest (i₀ + k) (f k) = some p := by
        intro k hk
        have := h k hk
        unfold cellAt at this ⊢
        rwa [show i₀ + 1 + k = (i₀ + k) + 1 by omega, List.getD_cons_succ] at this
      have hrec := ih f i₀ w ht
      rw [countSym_cons]
      omega

/-- A horizontal run of `w` cells holding `p` forces at least `w` marks of `p`
on the board. -/
theorem countSym_ge_row_run (b : Board) (p : Symbol) (i j w : Nat) (hw : 1 ≤ w)
    (h : ∀ k < w, cellAt b i (j + k) = some p) : w ≤ countSym b p := by
  have hlt : i < b.length := by
    by_contra hge
    have h0 := h 0 hw
    unfold cellAt at h0
    rw [show b.getD i [] = [] from List.getD_eq_default b [] (by omega),
      List.getD_nil] at h0
    exact absurd h0 (by simp)
  have hrow : w ≤ (b.getD i []).countP fun c => c = some p :=
    countP_ge_run (b.getD i []) p j w fun k hk => h k hk
  have hmem : ((b.getD i []).countP fun c => c = some p) ∈
      b.map fun row => row.countP fun c => c = some p := by
    rw [List.getD_eq_getElem _ _ hlt]
    exact List.mem_map.mpr ⟨b[i], List.getElem_mem hlt, rfl⟩
  have hle := List.single_le_sum
    (fun x (_ : x ∈ b.map fun row => row.countP fun c => c = some p) =>
      Nat.zero_le x) _ hmem
  unfold countSym
  omega

theorem getD_replicate {α : Type} (m : Nat) (x : α) :
    ∀ i (d : α), (List.replicate m x).getD i d = if i < m then x else d := by
  induction m with
  | zero => intro i d; simp
  | succ m₀ ih =>
    intro i d
    cases i with
    | zero => simp [List.replicate]
    | succ i₀ =>
      rw [List.replicate, List.getD_cons_succ, ih]
      by_cases h : i₀ < m₀
      · rw [if_pos h, if_pos (by omega)]
      · rw [if_neg h, if_neg (by omega)]

theorem cellAt_emptyBoard (n i j : Nat) : cellAt (emptyBoard n) i j = none := by
  unfold cellAt emptyBoard
  rw [getD_replicate]
  split
  · rw [getD_replicate]
    split <;> rfl
  · rw [List.getD_nil]

theorem tryLineAt_emptyBoard (n i j : Nat) (cells : List (Nat × Nat)) :
    tryLineAt (emptyBoard n) i j cells = none := by
  unfold tryLineAt
  rw [cellAt_emptyBoard]

theorem scanRows_emptyBoard (n w m : Nat) : scanRows n w (emptyBoard m) = none := by
  unfold scanRows
  rw [List.findSome?_eq_none_iff]
  intro i _
  rw [List.findSome?_eq_none_iff]
  intro j _
  exact tryLineAt_emptyBoard m i j _

theorem scanCols_emptyBoard (n w m : Nat) : scanCols n w (emptyBoard m) = none := by
  unfold scanCols
  rw [List.findSome?_eq_none_iff]
  intro i _
  rw [List.findSome?_eq_none_iff]
  intro j _
  exact tryLineAt_emptyBoard m i j _

theorem scanDiag_emptyBoard (n w m : Nat) : scanDiag n w (emptyBoard m) = none := by
  unfold scanDiag
  rw [List.findSome?_eq_none_iff]
  intro i _
  rw [List.findSome?_eq_none_iff]
  intro j _
  exact tryLineAt_emptyBoard m i j _

theorem scanAnti_emptyBoard (n w m : Nat) : scanAnti n w (emptyBoard m) = none := by
  unfold scanAnti
  rw [List.findSome?_eq_none_iff]
  intro i _
  rw [List.findSome?_eq_none_iff]
  intro j _
  exact tryLineAt_emptyBoard m i j _

theorem isBoardFull_emptyBoard {n : Nat} (hn : 1 ≤ n) :
    isBoardFull (emptyBoard n) = false := by
  rw [Bool.eq_false_iff]
  intro hall
  unfold isBoardFull emptyBoard at hall
  have hrow := List.all_eq_true.mp hall (List.replicate n none)
    (List.mem_replicate.mpr ⟨by omega, rfl⟩)
  have hcell := List.all_eq_true.mp hrow none
    (List.mem_replicate.mpr ⟨by omega, rfl⟩)
  exact absurd hcell (by simp)

theorem checkWinner_emptyBoard {n w : Nat} (hn : 1 ≤ n) :
    checkWinner n w (emptyBoard n) = .InProgress := by
  rw [checkWinner_of_scans_none (scanRows_emptyBoard n w n)
    (scanCols_emptyBoard n w n) (scanDiag_emptyBoard n w n)
    (scanAnti_emptyBoard n w n), isBoardFull_emptyBoard hn]
  rfl

/-- The local state of the `GameBoard` component: `board`, `gameOver`,
`winningLine`, `gameStarted`, `currentPlayerState`, together with the
`gridSize`/`winLength` props in effect. -/
structure GBState where
  gridSize : Nat
  winLength : Nat
  board : Board
  gameOver : Bool
  winningLine : List (Nat × Nat)
  gameStarted : Bool
  currentPlayerState : Symbol
deriving Repr, DecidableEq

/-- `currentPlayerState === 'X' ? 'O' : 'X'` — the turn switch of
`handleCellTap`; note it is hardcoded to the literals `'X'`/`'O'`. -/
def nextPlayer (current : Symbol) : Symbol :=
  if current = "X" then "O" else "X"

/-- `newBoard[row][col] = value` on a deep copy of the board. -/
def setCell (b : Board) (row col : Nat) (v : CellValue) : Board :=
  b.set row ((b.getD row []).set col v)

/-- `handleCellTap` from `src/components/GameBoard.tsx`: ignore the tap when
the game is over or the target cell is truthy; otherwise mark the game as
started, place the current player's symbol, evaluate `checkWinner`, and
either finish the game (recording the winning line on a win) or switch the
player. -/
def handleCellTap (s : GBState) (row col : Nat) : GBState :=
  if s.gameOver || cellTruthy (cellAt s.board row col) then s
  else
    let newBoard := setCell s.board row col (some s.currentPlayerState)
    match checkWinner s.gridSize s.winLength newBoard with
    | .Won _ line =>
      { s with gameStarted := true, board := newBoard, gameOver := true,
               winningLine := line }
    | .Tie =>
      { s with gameStarted := true, board := newBoard, gameOver := true }
    | .InProgress =>
      { s with gameStarted := true, board := newBoard,
               currentPlayerState := nextPlayer s.currentPlayerState }

/-- The `tapGesture` handler: ignore the tap when the game is over, compute
the cell, and call `handleCellTap` only when the coordinates are in range. -/
def tapAt (s : GBState) (row col : Int) : GBState :=
  if s.gameOver then s
  else if 0 ≤ row ∧ row < (s.gridSize : Int) ∧ 0 ≤ col ∧ col < (s.gridSize : Int) then
    handleCellTap s row.toNat col.toNat
  else s

/-- `resetGameBoard`: empty board, flags cleared, current player hardcoded to
`'X'`. -/
def resetGameBoard (s : GBState) : GBState :=
  { s with board := emptyBoard s.gridSize, gameOver := false, winningLine := [],
           gameStarted := false, currentPlayerState := "X" }

/-- The component's initial state (`useState` initializers). -/
def initialGBState (n w : Nat) : GBState :=
  { gridSize := n, winLength := w, board := emptyBoard n, gameOver := false,
    winningLine := [], gameStarted := false, currentPlayerState := "X" }

/-- `b.length = n` and every row has length `n`. -/
def wellFormed (n : Nat) (b : Board) : Prop :=
  b.length = n ∧ ∀ row ∈ b, row.length = n

instance (n : Nat) (b : Board) : Decidable (wellFormed n b) := by
  unfold wellFormed
  infer_instance

theorem getD_set_self {α : Type} (l : List α) (i : Nat) (v d : α)
    (h : i < l.length) : (l.set i v).getD i d = v := by
  induction l generalizing i with
  | nil => simp at h
  | cons a t ih =>
    cases i with
    | zero => rfl
    | succ i₀ =>
      rw [List.set_cons_succ, List.getD_cons_succ]
      exact ih i₀ (by simpa using h)

theorem getD_set_ne {α : Type} (l : List α) (i j : Nat) (v d : α)
    (h : i ≠ j) : (l.set i v).getD j d = l.getD j d := by
  induction l generalizing i j with
  | nil => simp [List.set]
  | cons a t ih =>
    cases i with
    | zero =>
      cases j with
      | zero => exact absurd rfl h
      | succ j₀ => rfl
    | succ i₀ =>
      cases j with
      | zero => rfl
      | succ j₀ =>
        rw [List.set_cons_succ, List.getD_cons_succ, List.getD_cons_succ]
        exact ih i₀ j₀ (by omega)

theorem cellAt_setCell_self {n : Nat} {b : Board} (hwf : wellFormed n b)
    {row col : Nat} (hrow : row < n) (hcol : col < n) (v : CellValue) :
    cellAt (setCell b row col v) row col = v := by
  obtain ⟨hlen, hrows⟩ := hwf
  unfold cellAt setCell
  rw [getD_set_self _ _ _ _ (by omega)]
  refine getD_set_self _ _ _ _ ?_
  rw [List.getD_eq_getElem _ _ (by omega)]
  rw [hrows b[row] (List.getElem_mem (by omega))]
  exact hcol

theorem cellAt_setCell_other {b : Board} {row col i j : Nat}
    (h : i ≠ row ∨ j ≠ col) (v : CellValue) :
    cellAt (setCell b row col v) i j = cellAt b i j := by
  unfold cellAt setCell
  rcases h with h | h
  · rw [getD_set_ne _ _ _ _ _ (by omega)]
  · by_cases hi : i = row
    · subst hi
      by_cases hlt : i < b.length
      · rw [getD_set_self _ _ _ _ hlt]
        rw [getD_set_ne _ _ _ _ _ (by omega)]
      · rw [List.set_eq_of_length_le (by omega)]
    · rw [getD_set_ne _ _ _ _ _ (by omega)]

/-- `{ player1, player2, ties }` score record of `TicTacToeScreen`. -/
structure ScoreType where
  player1 : Nat
  player2 : Nat
  ties : Nat
deriving Repr, DecidableEq

/-- The screen-level match state of `TicTacToeScreen` relevant to round and
match bookkeeping. -/
structure MatchState where
  gameStarted : Bool
  score : ScoreType
  timerActive : Bool
  lastWinner : Option Symbol
  currentRound : Nat
  showMatchComplete : Bool
  matchWinner : Option Symbol
deriving Repr, DecidableEq

/-- `Math.ceil(maxRounds / 2)` on a natural number. -/
def ceilHalf (m : Nat) : Nat := (m + 1) / 2

/-- The match-complete `useEffect` of `TicTacToeScreen` (it runs after every
`score`/`currentRound` update): if any game has been played, complete the
match when a player reached `ceil(maxRounds/2)` round wins, or — failing
that — when `currentRound >= maxRounds`, in which case the winner is the
player with the strictly higher score (equal scores give no winner). -/
def matchCompleteEffect (maxRounds : Nat) (p1Sym p2Sym : Symbol)
    (st : MatchState) : MatchState :=
  if 0 < st.score.player1 ∨ 0 < st.score.player2 ∨ 0 < st.score.ties then
    let need := ceilHalf maxRounds
    if need ≤ st.score.player1 then
      { st with showMatchComplete := true, matchWinner := some p1Sym }
    else if need ≤ st.score.player2 then
      { st with showMatchComplete := true, matchWinner := some p2Sym }
    else if maxRounds ≤ st.currentRound then
      { st with showMatchComplete := true,
                matchWinner :=
                  if st.score.player2 < st.score.player1 then some p1Sym
                  else if st.score.player1 < st.score.player2 then some p2Sym
                  else none }
    else st
  else st

/-- `handleGameWon` of `TicTacToeScreen` (state updates only): record the
last winner, stop the timer, bump the score of the player whose literal
symbol matches (`'X'` → player 1, `'O'` → player 2), and increment the round
counter. -/
def handleGameWon (winner : Symbol) (st : MatchState) : MatchState :=
  { st with
    lastWinner := some winner,
    timerActive := false,
    score :=
      if winner = "X" then { st.score with player1 := st.score.player1 + 1 }
      else if winner = "O" then { st.score with player2 := st.score.player2 + 1 }
      else st.score,
    currentRound := st.currentRound + 1 }

/-- `handleGameTie` of `TicTacToeScreen` (state updates only). -/
def handleGameTie (st : MatchState) : MatchState :=
  { st with
    timerActive := false,
    score := { st.score with ties := st.score.ties + 1 },
    currentRound := st.currentRound + 1 }

/-- A won round as the screen processes it: the `handleGameWon` state updates
followed by the match-complete effect (which React runs on the re-render
with the updated `score` and `currentRound`). -/
def roundWonStep (maxRounds : Nat) (p1Sym p2Sym : Symbol) (winner : Symbol)
    (st : MatchState) : MatchState :=
  matchCompleteEffect maxRounds p1Sym p2Sym (handleGameWon winner st)

/-- A tied round: `handleGameTie` followed by the match-complete effect. -/
def roundTieStep (maxRounds : Nat) (p1Sym p2Sym : Symbol)
    (st : MatchState) : MatchState :=
  matchCompleteEffect maxRounds p1Sym p2Sym (handleGameTie st)

/-- JS `value || default` for the string settings reads
(`gameSettings.player1Symbol || 'X'` etc.). -/
def orDefault (s d : String) : String := if s = "" then d else s

/-- One record of the transient `roundsData` list. -/
structure RoundRecord where
  player : String
  playerName : String
  gridSize : Nat
  winLength : Nat
  time : Rat
  round : Nat
  date : String
  symbol : Symbol
deriving Repr, DecidableEq

/-- One persisted leaderboard entry. -/
structure LeaderboardEntry where
  player : String
  playerName : String
  gridSize : Nat
  winLength : Nat
  time : Rat
  date : String
  symbol : Symbol
deriving Repr, DecidableEq

/-- Comparator of `leaderboard.sort((a, b) => a.time - b.time)`. -/
def lbLE (a b : LeaderboardEntry) : Bool := a.time ≤ b.time

/-- The ascending-by-time sort of the leaderboard. -/
def sortLeaderboard (l : List LeaderboardEntry) : List LeaderboardEntry :=
  l.mergeSort lbLE

/-- The settings fields `saveMatchToLeaderboard` reads. -/
structure GameSettingsType where
  gridSize : Nat
  winLength : Nat
  currentPlayer : Symbol
  enableTimer : Bool
  enableSounds : Bool
  player1Name : String
  player2Name : String
  maxRounds : Nat
  player1Symbol : Symbol
  player2Symbol : Symbol
deriving Repr, DecidableEq

/-- The winner determination of `saveMatchToLeaderboard`:
`score.player1 > score.player2 ? player1Symbol : score.player2 >
score.player1 ? player2Symbol : null`. -/
def matchWinnerOf (score : ScoreType) (p1Sym p2Sym : Symbol) : Option Symbol :=
  if score.player2 < score.player1 then some p1Sym
  else if score.player1 < score.player2 then some p2Sym
  else none

/-- The new entry `saveMatchToLeaderboard` constructs for the winner `w`:
label/name by which configured symbol won, average time over the winner's
round records with `round <= currentRound` (0 when there are none). -/
def matchEntry (gs : GameSettingsType) (w : Symbol)
    (roundsData : List RoundRecord) (currentRound : Nat) (date : String) :
    LeaderboardEntry :=
  let p1Sym := orDefault gs.player1Symbol "X"
  let isPlayer1 := w = p1Sym
  let playerName :=
    if isPlayer1 then orDefault gs.player1Name "Player 1"
    else orDefault gs.player2Name "Player 2"
  let playerLabel := if isPlayer1 then "Player 1" else "Player 2"
  let winnerRounds :=
    roundsData.filter fun r => r.symbol = w ∧ r.round ≤ currentRound
  let totalTime := (winnerRounds.map fun r => r.time).sum
  let avgTime :=
    if 0 < winnerRounds.length then totalTime / (winnerRounds.length : Rat)
    else 0
  { player := playerLabel, playerName := playerName, gridSize := gs.gridSize,
    winLength := gs.winLength, time := avgTime, date := date, symbol := w }

/-- `saveMatchToLeaderboard` of `TicTacToeScreen`, acting on the persisted
`leaderboard` and `roundsData` blobs: no-op unless the timer is enabled and
the score has a strict winner; otherwise append the new entry, sort
ascending by time, keep the first 10, and clear the round records. -/
def saveMatchToLeaderboard (gs : GameSettingsType) (score : ScoreType)
    (currentRound : Nat) (date : String) (leaderboard : List LeaderboardEntry)
    (roundsData : List RoundRecord) :
    List LeaderboardEntry × List RoundRecord :=
  if gs.enableTimer = false then (leaderboard, roundsData)
  else
    match matchWinnerOf score (orDefault gs.player1Symbol "X")
        (orDefault gs.player2Symbol "O") with
    | none => (leaderboard, roundsData)
    | some w =>
      ((sortLeaderboard
          (leaderboard ++ [matchEntry gs w roundsData currentRound date])).take 10,
       [])

/-- The settings fields of the settings screen (`src/app/(tabs)/settings.tsx`). -/
structure SettingsState where
  gridSize : Nat
  winLength : Nat
  enableTimer : Bool
  enableSounds : Bool
  player1Name : String
  player2Name : String
  maxRounds : Nat
  player1Symbol : String
  player2Symbol : String
deriving Repr, DecidableEq

/-- `handlePlayer1SymbolChange`: reject (alert, no save) when the chosen
symbol equals player 2's current symbol; otherwise save the update. The
returned flag records whether the duplicate-symbol alert was raised. -/
def handlePlayer1SymbolChange (s : SettingsState) (symbol : String) :
    SettingsState × Bool :=
  if symbol = s.player2Symbol then (s, true)
  else ({ s with player1Symbol := symbol }, false)

/-- `handlePlayer2SymbolChange`: reject (alert, no save) when the chosen
symbol equals player 1's current symbol; otherwise save the update. -/
def handlePlayer2SymbolChange (s : SettingsState) (symbol : String) :
    SettingsState × Bool :=
  if symbol = s.player1Symbol then (s, true)
  else ({ s with player2Symbol := symbol }, false)

theorem handleCellTap_guard {s : GBState} {row col : Nat}
    (h : s.gameOver = true ∨ cellTruthy (cellAt s.board row col) = true) :
    handleCellTap s row col = s := by
  unfold handleCellTap
  rcases h with h | h <;> rw [h] <;> simp

theorem handleCellTap_board {s : GBState} {row col : Nat}
    (hgo : s.gameOver = false)
    (hempty : cellTruthy (cellAt s.board row col) = false) :
    (handleCellTap s row col).board =
      setCell s.board row col (some s.currentPlayerState) := by
  unfold handleCellTap
  rw [hgo, hempty]
  simp only [Bool.or_self, Bool.false_eq_true, if_false]
  split <;> rfl

theorem handleCellTap_inProgress {s : GBState} {row col : Nat}
    (hgo : s.gameOver = false)
    (hempty : cellTruthy (cellAt s.board row col) = false)
    (hnt : checkWinner s.gridSize s.winLength
      (setCell s.board row col (some s.currentPlayerState)) = .InProgress) :
    handleCellTap s row col =
      { s with gameStarted := true,
               board := setCell s.board row col (some s.currentPlayerState),
               currentPlayerState := nextPlayer s.currentPlayerState } := by
  unfold handleCellTap
  rw [hgo, hempty]
  simp only [Bool.or_self, Bool.false_eq_true, if_false, hnt]

theorem one_le_ceilHalf {m : Nat} (h : 1 ≤ m) : 1 ≤ ceilHalf m := by
  unfold ceilHalf
  omega

theorem matchCompleteEffect_p1 {mr : Nat} {p1 p2 : Symbol} {st : MatchState}
    (h0 : 1 ≤ ceilHalf mr) (h : ceilHalf mr ≤ st.score.player1) :
    matchCompleteEffect mr p1 p2 st =
      { st with showMatchComplete := true, matchWinner := some p1 } := by
  unfold matchCompleteEffect
  rw [if_pos (Or.inl (by omega)), if_pos h]

theorem matchCompleteEffect_p2 {mr : Nat} {p1 p2 : Symbol} {st : MatchState}
    (_h0 : 1 ≤ ceilHalf mr) (h1 : st.score.player1 < ceilHalf mr)
    (h : ceilHalf mr ≤ st.score.player2) :
    matchCompleteEffect mr p1 p2 st =
      { st with showMatchComplete := true, matchWinner := some p2 } := by
  unfold matchCompleteEffect
  rw [if_pos (Or.inr (Or.inl (by omega))), if_neg (by omega), if_pos h]

theorem matchCompleteEffect_byScore {mr : Nat} {p1 p2 : Symbol} {st : MatchState}
    (hplayed : 0 < st.score.player1 ∨ 0 < st.score.player2 ∨ 0 < st.score.ties)
    (h1 : st.score.player1 < ceilHalf mr) (h2 : st.score.player2 < ceilHalf mr)
    (hr : mr ≤ st.currentRound) :
    matchCompleteEffect mr p1 p2 st =
      { st with showMatchComplete := true,
                matchWinner :=
                  if st.score.player2 < st.score.player1 then some p1
                  else if st.score.player1 < st.score.player2 then some p2
                  else none } := by
  unfold matchCompleteEffect
  rw [if_pos hplayed, if_neg (by omega), if_neg (by omega), if_pos hr]

theorem matchCompleteEffect_noop {mr : Nat} {p1 p2 : Symbol} {st : MatchState}
    (h1 : st.score.player1 < ceilHalf mr) (h2 : st.score.player2 < ceilHalf mr)
    (hr : st.currentRound < mr) :
    matchCompleteEffect mr p1 p2 st = st := by
  unfold matchCompleteEffect
  split
  · rw [if_neg (by omega), if_neg (by omega), if_neg (by omega)]
  · rfl

theorem handleGameWon_X (st : MatchState) :
    handleGameWon "X" st =
      { st with lastWinner := some "X", timerActive := false,
                score := { st.score with player1 := st.score.player1 + 1 },
                currentRound := st.currentRound + 1 } := by
  unfold handleGameWon
  rw [if_pos rfl]

theorem handleGameWon_O (st : MatchState) :
    handleGameWon "O" st =
      { st with lastWinner := some "O", timerActive := false,
                score := { st.score with player2 := st.score.player2 + 1 },
                currentRound := st.currentRound + 1 } := by
  unfold handleGameWon
  rw [if_neg (by decide), if_pos rfl]

theorem sortLeaderboard_sorted (l : List LeaderboardEntry) :
    (sortLeaderboard l).Pairwise fun a b => a.time ≤ b.time := by
  have h := @List.sorted_mergeSort LeaderboardEntry lbLE
    (fun a b c h1 h2 => by
      unfold lbLE at h1 h2 ⊢
      exact decide_eq_true (le_trans (of_decide_eq_true h1) (of_decide_eq_true h2)))
    (fun a b => by
      unfold lbLE
      rcases le_total a.time b.time with h | h
      · rw [Bool.or_eq_true]; exact Or.inl (decide_eq_true h)
      · rw [Bool.or_eq_true]; exact Or.inr (decide_eq_true h)) l
  exact h.imp fun hab => of_decide_eq_true hab

/-- Cap, sortedness, and lowest-10 retention of the insert-sort-truncate
sequence of `saveMatchToLeaderboard`. -/
theorem take10_sorted_props (l : List LeaderboardEntry) (e : LeaderboardEntry) :
    ((sortLeaderboard (l ++ [e])).take 10).length ≤ 10 ∧
    ((sortLeaderboard (l ++ [e])).take 10).Pairwise (fun a b => a.time ≤ b.time) ∧
    (l.length = 10 → ((sortLeaderboard (l ++ [e])).take 10).length = 10) ∧
    (((sortLeaderboard (l ++ [e])).take 10) ++
        ((sortLeaderboard (l ++ [e])).drop 10)).Perm (e :: l) ∧
    (∀ x ∈ (sortLeaderboard (l ++ [e])).take 10,
      ∀ y ∈ (sortLeaderboard (l ++ [e])).drop 10, x.time ≤ y.time) := by
  have hsorted := sortLeaderboard_sorted (l ++ [e])
  have hlen : (sortLeaderboard (l ++ [e])).length = l.length + 1 := by
    unfold sortLeaderboard
    rw [List.length_mergeSort, List.length_append]
    rfl
  refine ⟨?_, ?_, ?_, ?_, ?_⟩
  · rw [List.length_take]
    omega
  · exact List.Pairwise.sublist (List.take_sublist 10 _) hsorted
  · intro h10
    rw [List.length_take]
    omega
  · have hta := List.take_append_drop 10 (sortLeaderboard (l ++ [e]))
    rw [hta]
    unfold sortLeaderboard
    exact (List.mergeSort_perm (l ++ [e]) lbLE).trans (List.perm_append_singleton e l)
  · intro x hx y hy
    have hsp : List.Pairwise (fun a b => a.time ≤ b.time)
        ((sortLeaderboard (l ++ [e])).take 10 ++
          (sortLeaderboard (l ++ [e])).drop 10) := by
      rw [List.take_append_drop]
      exact hsorted
    exact (List.pairwise_append.mp hsp).2.2 x hx y hy

/-- A full 3×3 board with no three-in-a-row, used as a concrete witness. -/
def tieBoard3 : Board :=
  [[some "X", some "O", some "X"],
   [some "X", some "O", some "O"],
   [some "O", some "X", some "X"]]

/-- C1: for every board and every `winLength` with `1 ≤ winLength ≤ gridSize`,
`checkWinner` reports Tie iff the board is completely full and no run of
`winLength` equal non-empty symbols exists in any of the four directions; it
never reports both Win and Tie for the same board; and a non-full board with
no winning run is reported InProgress. -/
theorem claim1_tie_iff_full_and_no_run (n w : Nat) (b : Board)
    (hw : 1 ≤ w) (hwn : w ≤ n) :
    (checkWinner n w b = .Tie ↔
      isBoardFull b = true ∧ ¬ existsWinRun b n w) ∧
    (∀ p l, ¬ (checkWinner n w b = .Won p l ∧ checkWinner n w b = .Tie)) ∧
    (isBoardFull b = false → ¬ existsWinRun b n w →
      checkWinner n w b = .InProgress) := by
  refine ⟨⟨?_, ?_⟩, ?_, ?_⟩
  · intro h
    obtain ⟨h1, h2, h3, h4, hf⟩ := checkWinner_tie_elim h
    exact ⟨hf, (scans_none_iff b hw hwn).mp ⟨h1, h2, h3, h4⟩⟩
  · rintro ⟨hf, hnorun⟩
    obtain ⟨h1, h2, h3, h4⟩ := (scans_none_iff b hw hwn).mpr hnorun
    rw [checkWinner_of_scans_none h1 h2 h3 h4, if_pos hf]
  · rintro p l ⟨hwon, htie⟩
    rw [hwon] at htie
    exact absurd htie (by simp)
  · intro hf hnorun
    obtain ⟨h1, h2, h3, h4⟩ := (scans_none_iff b hw hwn).mpr hnorun
    rw [checkWinner_of_scans_none h1 h2 h3 h4, if_neg (by simp [hf])]

/-- Witness for C1 at the concrete full 3×3 tie board. -/
theorem claim1_witness :
    (1 ≤ 3 ∧ 3 ≤ 3) ∧
    ((checkWinner 3 3 tieBoard3 = .Tie ↔
        isBoardFull tieBoard3 = true ∧ ¬ existsWinRun tieBoard3 3 3) ∧
     (∀ p l, ¬ (checkWinner 3 3 tieBoard3 = .Won p l ∧
        checkWinner 3 3 tieBoard3 = .Tie)) ∧
     (isBoardFull tieBoard3 = false → ¬ existsWinRun tieBoard3 3 3 →
        checkWinner 3 3 tieBoard3 = .InProgress)) :=
  ⟨by decide, claim1_tie_iff_full_and_no_run 3 3 tieBoard3 (by decide) (by decide)⟩

/-- C2: for grid sizes `3 ≤ n ≤ 6` and `winLength ≤ n`, `checkWinner` never
reports a Win on a board holding fewer than `winLength` marks of every single
symbol; and the board with zero occupied cells is reported InProgress (hence
neither a win nor a tie). -/
theorem claim2_no_win_with_few_marks (n w : Nat) (hn3 : 3 ≤ n) (hn6 : n ≤ 6)
    (hwn : w ≤ n) :
    (∀ b : Board, (∀ p : Symbol, countSym b p < w) →
      ∀ p l, checkWinner n w b ≠ .Won p l) ∧
    checkWinner n w (emptyBoard n) = .InProgress := by
  constructor
  · intro b hfew p l h
    cases w with
    | zero => exact absurd (hfew "X") (by omega)
    | succ w₀ =>
      have hw : 1 ≤ w₀ + 1 := by omega
      obtain ⟨hpne, hrun⟩ := checkWinner_won_run hw h
      have hge : w₀ + 1 ≤ countSym b p := by
        rcases hrun with ⟨i, j, hi, hj, hall⟩ | ⟨i, j, hi, hj, hall⟩ |
          ⟨i, j, hi, hj, hall⟩ | ⟨i, j, hi, hj1, hj2, hall⟩
        · exact countSym_ge_row_run b p i j (w₀ + 1) hw hall
        · exact countSym_ge_col_run b p (fun _ => j) i (w₀ + 1) hall
        · exact countSym_ge_col_run b p (fun k => j + k) i (w₀ + 1) hall
        · exact countSym_ge_col_run b p (fun k => j - k) i (w₀ + 1) hall
      exact absurd (hfew p) (by omega)
  · exact checkWinner_emptyBoard (by omega)

/-- Witness for C2 at grid size 3, win length 3. -/
theorem claim2_witness :
    (3 ≤ 3 ∧ 3 ≤ 6 ∧ 3 ≤ 3) ∧
    ((∀ b : Board, (∀ p : Symbol, countSym b p < 3) →
        ∀ p l, checkWinner 3 3 b ≠ .Won p l) ∧
     checkWinner 3 3 (emptyBoard 3) = .InProgress) :=
  ⟨by decide, claim2_no_win_with_few_marks 3 3 (by decide) (by decide) (by decide)⟩

/-- A `GameBoard` state as it arises when the configured symbols are
`'A'`/`'B'`: the parent passes `currentPlayer = 'A'` (player 1's configured
symbol) into an otherwise fresh 3×3 board. -/
def gbStateAB : GBState :=
  { gridSize := 3, winLength := 3, board := emptyBoard 3, gameOver := false,
    winningLine := [], gameStarted := false, currentPlayerState := "A" }

/-- C3 counterexample: with configured symbols `'A'` (player 1) and `'B'`
(player 2), the valid non-terminal move by `'A'` at (0,0) hands the turn to
the hardcoded `'X'`, not to the other configured symbol `'B'`; and the
round reset hands the turn to the hardcoded `'X'`, not to player 1's
configured symbol `'A'`. -/
theorem claim3_cex :
    gbStateAB.currentPlayerState = "A" ∧
    (handleCellTap gbStateAB 0 0).gameOver = false ∧
    (handleCellTap gbStateAB 0 0).currentPlayerState = "X" ∧
    "X" ≠ "B" ∧
    (resetGameBoard gbStateAB).currentPlayerState = "X" ∧
    "X" ≠ "A" := by decide

/-- C3 (amended): the turn switch of `handleCellTap` is hardcoded to the
literals `'X'`/`'O'` (`current === 'X' ? 'O' : 'X'`), so after a valid
non-terminal move the turn alternates strictly between the two configured
symbols only under the default configuration `player1Symbol = 'X'`,
`player2Symbol = 'O'`; and after a terminal move the next round begins with
the hardcoded `'X'` (player 1's symbol under the default configuration),
regardless of who moved last. -/
theorem claim3_amended_hardcoded_alternation (s : GBState) (row col : Nat)
    (hgo : s.gameOver = false)
    (hempty : cellTruthy (cellAt s.board row col) = false)
    (hnt : checkWinner s.gridSize s.winLength
      (setCell s.board row col (some s.currentPlayerState)) = .InProgress) :
    ((handleCellTap s row col).currentPlayerState =
        nextPlayer s.currentPlayerState ∧
     (s.currentPlayerState = "X" →
        (handleCellTap s row col).currentPlayerState = "O") ∧
     (s.currentPlayerState = "O" →
        (handleCellTap s row col).currentPlayerState = "X") ∧
     (s.currentPlayerState = "X" ∨ s.currentPlayerState = "O" →
        (handleCellTap s row col).currentPlayerState ≠ s.currentPlayerState)) ∧
    (resetGameBoard s).currentPlayerState = "X" := by
  have hstep := handleCellTap_inProgress hgo hempty hnt
  rw [hstep]
  refine ⟨⟨rfl, ?_, ?_, ?_⟩, rfl⟩
  · intro hx
    rw [hx]
    rfl
  · intro ho
    rw [ho]
    rfl
  · rintro (hx | ho)
    · rw [hx]; simp [nextPlayer]
    · rw [ho]; simp [nextPlayer]

/-- Witness for C3 (amended) at the default initial state. -/
theorem claim3_witness :
    ((initialGBState 3 3).gameOver = false ∧
     cellTruthy (cellAt (initialGBState 3 3).board 0 0) = false ∧
     checkWinner 3 3 (setCell (initialGBState 3 3).board 0 0 (some "X")) =
       .InProgress) ∧
    (((handleCellTap (initialGBState 3 3) 0 0).currentPlayerState =
        nextPlayer (initialGBState 3 3).currentPlayerState ∧
      ((initialGBState 3 3).currentPlayerState = "X" →
        (handleCellTap (initialGBState 3 3) 0 0).currentPlayerState = "O") ∧
      ((initialGBState 3 3).currentPlayerState = "O" →
        (handleCellTap (initialGBState 3 3) 0 0).currentPlayerState = "X") ∧
      ((initialGBState 3 3).currentPlayerState = "X" ∨
         (initialGBState 3 3).currentPlayerState = "O" →
        (handleCellTap (initialGBState 3 3) 0 0).currentPlayerState ≠
          (initialGBState 3 3).currentPlayerState)) ∧
     (resetGameBoard (initialGBState 3 3)).currentPlayerState = "X") :=
  ⟨by decide, claim3_amended_hardcoded_alternation (initialGBState 3 3) 0 0
    (by decide) (by decide) (by decide)⟩

/-- C4: on a 3×3 board with win length 3, the move sequence X(0,0), O(1,1),
X(0,1), O(1,2), X(0,2) (played from the initial state, the turn alternating
as the component does) yields a win by X whose reported winning line is
exactly [(0,0),(0,1),(0,2)], and the resulting board holds exactly those
marks. -/
theorem claim4_scenario_row_win :
    (handleCellTap (handleCellTap (handleCellTap (handleCellTap (handleCellTap
        (initialGBState 3 3) 0 0) 1 1) 0 1) 1 2) 0 2).board =
      [[some "X", some "X", some "X"],
       [none, some "O", some "O"],
       [none, none, none]] ∧
    checkWinner 3 3
      (handleCellTap (handleCellTap (handleCellTap (handleCellTap (handleCellTap
        (initialGBState 3 3) 0 0) 1 1) 0 1) 1 2) 0 2).board =
      .Won "X" [(0, 0), (0, 1), (0, 2)] ∧
    (handleCellTap (handleCellTap (handleCellTap (handleCellTap (handleCellTap
        (initialGBState 3 3) 0 0) 1 1) 0 1) 1 2) 0 2).winningLine =
      [(0, 0), (0, 1), (0, 2)] ∧
    (handleCellTap (handleCellTap (handleCellTap (handleCellTap (handleCellTap
        (initialGBState 3 3) 0 0) 1 1) 0 1) 1 2) 0 2).gameOver = true := by
  decide

/-- C5: immediately after a round's score update (the effect runs on the
updated score), a player whose round-win count reaches `ceil(maxRounds/2)`
wins the match at once — with no hypothesis on the round counter, so in
particular even when rounds remain to be played. -/
theorem claim5_majority_ends_match (maxRounds : Nat) (p1Sym p2Sym : Symbol)
    (st : MatchState) (hm : 1 ≤ maxRounds) :
    (ceilHalf maxRounds ≤ st.score.player1 + 1 →
      (roundWonStep maxRounds p1Sym p2Sym "X" st).showMatchComplete = true ∧
      (roundWonStep maxRounds p1Sym p2Sym "X" st).matchWinner = some p1Sym) ∧
    (st.score.player1 < ceilHalf maxRounds →
      ceilHalf maxRounds ≤ st.score.player2 + 1 →
      (roundWonStep maxRounds p1Sym p2Sym "O" st).showMatchComplete = true ∧
      (roundWonStep maxRounds p1Sym p2Sym "O" st).matchWinner = some p2Sym) := by
  have h0 := one_le_ceilHalf hm
  constructor
  · intro h
    unfold roundWonStep
    rw [handleGameWon_X st, matchCompleteEffect_p1 h0 (by simpa using h)]
    exact ⟨rfl, rfl⟩
  · intro h1 h
    unfold roundWonStep
    rw [handleGameWon_O st,
      matchCompleteEffect_p2 h0 (by simpa using h1) (by simpa using h)]
    exact ⟨rfl, rfl⟩

/-- A match state after three rounds of five, player 1 on two round wins. -/
def claim5State : MatchState :=
  { gameStarted := true, score := { player1 := 2, player2 := 0, ties := 1 },
    timerActive := true, lastWinner := some "X", currentRound := 3,
    showMatchComplete := false, matchWinner := none }

/-- Witness for C5: with `maxRounds = 5`, player 1's third round win ends the
match at once although the round counter (4) is still below 5. -/
theorem claim5_witness :
    (1 ≤ 5 ∧ ceilHalf 5 ≤ claim5State.score.player1 + 1 ∧
     (roundWonStep 5 "X" "O" "X" claim5State).currentRound < 5) ∧
    ((roundWonStep 5 "X" "O" "X" claim5State).showMatchComplete = true ∧
     (roundWonStep 5 "X" "O" "X" claim5State).matchWinner = some "X") :=
  ⟨by decide,
   (claim5_majority_ends_match 5 "X" "O" claim5State (by decide)).1 (by decide)⟩

/-- A match state entering round 4 of 5 with the score 1–2 and no ties. -/
def claim6CexState : MatchState :=
  { gameStarted := true, score := { player1 := 1, player2 := 2, ties := 0 },
    timerActive := true, lastWinner := some "O", currentRound := 4,
    showMatchComplete := false, matchWinner := none }

/-- C6 counterexample: with `maxRounds = 5`, after the fourth round win makes
the score 2–2 the round counter is 5, which is not greater than `maxRounds`,
and neither player has reached `ceil(5/2) = 3` round wins — yet the effect
completes the match by score comparison (a match tie). The claim's
"only once currentRound > maxRounds" is therefore false of the code. -/
theorem claim6_cex :
    claim6CexState.currentRound = 4 ∧
    (roundWonStep 5 "X" "O" "X" claim6CexState).score.player1 = 2 ∧
    (roundWonStep 5 "X" "O" "X" claim6CexState).score.player2 = 2 ∧
    (roundWonStep 5 "X" "O" "X" claim6CexState).currentRound = 5 ∧
    (2 < ceilHalf 5 ∧ ¬ ((5 : Nat) > 5)) ∧
    (roundWonStep 5 "X" "O" "X" claim6CexState).showMatchComplete = true ∧
    (roundWonStep 5 "X" "O" "X" claim6CexState).matchWinner = none := by
  decide

/-- C6 (amended): when neither player has reached `ceil(maxRounds/2)` round
wins, the effect completes the match by score comparison exactly once the
(already incremented) round counter satisfies `currentRound ≥ maxRounds`
(below that the state is untouched); the match winner is the player with the
strictly higher cumulative score, and equal scores give a match tie with no
winner. -/
theorem claim6_score_comparison (maxRounds : Nat) (p1Sym p2Sym : Symbol)
    (st : MatchState)
    (hplayed : 0 < st.score.player1 ∨ 0 < st.score.player2 ∨ 0 < st.score.ties)
    (h1 : st.score.player1 < ceilHalf maxRounds)
    (h2 : st.score.player2 < ceilHalf maxRounds) :
    (st.currentRound < maxRounds →
      matchCompleteEffect maxRounds p1Sym p2Sym st = st) ∧
    (maxRounds ≤ st.currentRound →
      (matchCompleteEffect maxRounds p1Sym p2Sym st).showMatchComplete = true ∧
      (matchCompleteEffect maxRounds p1Sym p2Sym st).matchWinner =
        (if st.score.player2 < st.score.player1 then some p1Sym
         else if st.score.player1 < st.score.player2 then some p2Sym
         else none)) := by
  constructor
  · intro hr
    exact matchCompleteEffect_noop h1 h2 hr
  · intro hr
    rw [matchCompleteEffect_byScore hplayed h1 h2 hr]
    exact ⟨rfl, rfl⟩

/-- A match state with equal scores 2–2 and round counter 5. -/
def claim6State : MatchState :=
  { gameStarted := true, score := { player1 := 2, player2 := 2, ties := 0 },
    timerActive := false, lastWinner := some "X", currentRound := 5,
    showMatchComplete := false, matchWinner := none }

/-- Witness for C6 (amended): at round counter 5 of `maxRounds = 5` with the
score 2–2, the match completes with no winner. -/
theorem claim6_witness :
    ((0 < claim6State.score.player1 ∨ 0 < claim6State.score.player2 ∨
        0 < claim6State.score.ties) ∧
     claim6State.score.player1 < ceilHalf 5 ∧
     claim6State.score.player2 < ceilHalf 5 ∧ 5 ≤ claim6State.currentRound) ∧
    ((matchCompleteEffect 5 "X" "O" claim6State).showMatchComplete = true ∧
     (matchCompleteEffect 5 "X" "O" claim6State).matchWinner =
       (if claim6State.score.player2 < claim6State.score.player1 then some "X"
        else if claim6State.score.player1 < claim6State.score.player2 then some "O"
        else none)) :=
  ⟨by decide,
   (claim6_score_comparison 5 "X" "O" claim6State (by decide) (by decide)
     (by decide)).2 (by decide)⟩

/-- C7: the leaderboard write of `saveMatchToLeaderboard` happens only when
the timer is enabled and the match has a definitive winner (never on a drawn
match); when it writes, the persisted leaderboard holds at most 10 entries
sorted ascending by average win time, an insertion into a full board of 10
keeps exactly 10 entries, and the kept entries together with the dropped
ones are a permutation of the old board plus the new entry with every kept
time at most every dropped time. -/
theorem claim7_leaderboard_cap_sorted (gs : GameSettingsType)
    (score : ScoreType) (currentRound : Nat) (date : String)
    (leaderboard : List LeaderboardEntry) (roundsData : List RoundRecord) :
    (gs.enableTimer = false →
      saveMatchToLeaderboard gs score currentRound date leaderboard roundsData =
        (leaderboard, roundsData)) ∧
    (score.player1 = score.player2 →
      saveMatchToLeaderboard gs score currentRound date leaderboard roundsData =
        (leaderboard, roundsData)) ∧
    (gs.enableTimer = true → score.player1 ≠ score.player2 →
      (saveMatchToLeaderboard gs score currentRound date leaderboard
          roundsData).1.length ≤ 10 ∧
      (saveMatchToLeaderboard gs score currentRound date leaderboard
          roundsData).1.Pairwise (fun a b => a.time ≤ b.time) ∧
      (leaderboard.length = 10 →
        (saveMatchToLeaderboard gs score currentRound date leaderboard
            roundsData).1.length = 10) ∧
      ∃ e dropped,
        ((saveMatchToLeaderboard gs score currentRound date leaderboard
            roundsData).1 ++ dropped).Perm (e :: leaderboard) ∧
        ∀ x ∈ (saveMatchToLeaderboard gs score currentRound date leaderboard
            roundsData).1, ∀ y ∈ dropped, x.time ≤ y.time) := by
  refine ⟨?_, ?_, ?_⟩
  · intro h
    unfold saveMatchToLeaderboard
    rw [if_pos h]
  · intro h
    unfold saveMatchToLeaderboard
    by_cases ht : gs.enableTimer = false
    · rw [if_pos ht]
    · rw [if_neg ht]
      have hmw : matchWinnerOf score (orDefault gs.player1Symbol "X")
          (orDefault gs.player2Symbol "O") = none := by
        unfold matchWinnerOf
        rw [if_neg (by omega), if_neg (by omega)]
      rw [hmw]
  · intro ht hne
    have hw : ∃ wsym, matchWinnerOf score (orDefault gs.player1Symbol "X")
        (orDefault gs.player2Symbol "O") = some wsym := by
      unfold matchWinnerOf
      by_cases hlt : score.player2 < score.player1
      · exact ⟨_, by rw [if_pos hlt]⟩
      · have hlt2 : score.player1 < score.player2 := by omega
        exact ⟨_, by rw [if_neg hlt, if_pos hlt2]⟩
    obtain ⟨wsym, hwsym⟩ := hw
    have hres : saveMatchToLeaderboard gs score currentRound date leaderboard
        roundsData =
        ((sortLeaderboard (leaderboard ++
            [matchEntry gs wsym roundsData currentRound date])).take 10, []) := by
      unfold saveMatchToLeaderboard
      rw [if_neg (by simp [ht]), hwsym]
    rw [hres]
    obtain ⟨hlen, hpair, h10, hperm, hcross⟩ :=
      take10_sorted_props leaderboard
        (matchEntry gs wsym roundsData currentRound date)
    exact ⟨hlen, hpair, h10,
      matchEntry gs wsym roundsData currentRound date,
      (sortLeaderboard (leaderboard ++
        [matchEntry gs wsym roundsData currentRound date])).drop 10,
      hperm, hcross⟩

/-- The settings used by the C7 witness. -/
def claim7Settings : GameSettingsType :=
  { gridSize := 3, winLength := 3, currentPlayer := "X", enableTimer := true,
    enableSounds := true, player1Name := "Alice", player2Name := "Bob",
    maxRounds := 5, player1Symbol := "X", player2Symbol := "O" }

/-- The final score used by the C7 witness (player 1 wins 3–1). -/
def claim7Score : ScoreType := { player1 := 3, player2 := 1, ties := 1 }

/-- A full persisted leaderboard of 10 entries with times 1..10 seconds. -/
def claim7Board : List LeaderboardEntry :=
  (List.range 10).map fun k =>
    { player := "Player 1", playerName := "Alice", gridSize := 3,
      winLength := 3, time := ((k : Rat) + 1), date := "2026-01-01",
      symbol := "X" }

/-- Witness for C7: inserting an 11th entry into a full leaderboard of 10. -/
theorem claim7_witness :
    (claim7Settings.enableTimer = true ∧
     claim7Score.player1 ≠ claim7Score.player2) ∧
    ((saveMatchToLeaderboard claim7Settings claim7Score 6 "2026-01-02"
        claim7Board []).1.length ≤ 10 ∧
     (saveMatchToLeaderboard claim7Settings claim7Score 6 "2026-01-02"
        claim7Board []).1.Pairwise (fun a b => a.time ≤ b.time) ∧
     (claim7Board.length = 10 →
       (saveMatchToLeaderboard claim7Settings claim7Score 6 "2026-01-02"
          claim7Board []).1.length = 10) ∧
     ∃ e dropped,
       ((saveMatchToLeaderboard claim7Settings claim7Score 6 "2026-01-02"
          claim7Board []).1 ++ dropped).Perm (e :: claim7Board) ∧
       ∀ x ∈ (saveMatchToLeaderboard claim7Settings claim7Score 6 "2026-01-02"
          claim7Board []).1, ∀ y ∈ dropped, x.time ≤ y.time) :=
  ⟨⟨rfl, by decide⟩,
   (claim7_leaderboard_cap_sorted claim7Settings claim7Score 6 "2026-01-02"
     claim7Board []).2.2 rfl (by decide)⟩

/-- C8: a tap on an occupied cell, a tap with out-of-range coordinates, or a
tap after the game reached a terminal state leaves the `GameBoard` state
exactly unchanged (the tap is ignored; no failure is surfaced). -/
theorem claim8_invalid_tap_ignored (s : GBState) (row col : Int)
    (h : s.gameOver = true ∨
      (row < 0 ∨ (s.gridSize : Int) ≤ row ∨ col < 0 ∨
        (s.gridSize : Int) ≤ col) ∨
      cellTruthy (cellAt s.board row.toNat col.toNat) = true) :
    tapAt s row col = s := by
  unfold tapAt
  by_cases hgo : s.gameOver = true
  · rw [if_pos hgo]
  · rw [if_neg hgo]
    rcases h with h | h | h
    · exact absurd h hgo
    · rw [if_neg (by
        rintro ⟨h1, h2, h3, h4⟩
        rcases h with h | h | h | h <;> omega)]
    · by_cases hb : 0 ≤ row ∧ row < (s.gridSize : Int) ∧ 0 ≤ col ∧
        col < (s.gridSize : Int)
      · rw [if_pos hb]
        exact handleCellTap_guard (Or.inr h)
      · rw [if_neg hb]

/-- A mid-game 3×3 state with an `X` already at cell (0,0). -/
def claim8State : GBState :=
  { gridSize := 3, winLength := 3,
    board := [[some "X", none, none], [none, none, none], [none, none, none]],
    gameOver := false, winningLine := [], gameStarted := true,
    currentPlayerState := "O" }

/-- Witness for C8: tapping the occupied cell (0,0) changes nothing. -/
theorem claim8_witness :
    (claim8State.gameOver = true ∨
      ((0 : Int) < 0 ∨ (claim8State.gridSize : Int) ≤ 0 ∨ (0 : Int) < 0 ∨
        (claim8State.gridSize : Int) ≤ 0) ∨
      cellTruthy (cellAt claim8State.board (0 : Int).toNat (0 : Int).toNat) =
        true) ∧
    tapAt claim8State 0 0 = claim8State :=
  ⟨by decide, claim8_invalid_tap_ignored claim8State 0 0 (by decide)⟩

/-- C9: choosing for one player the symbol currently held by the other player
is rejected — the duplicate-symbol alert is raised and the stored settings are
returned exactly unchanged. -/
theorem claim9_duplicate_symbol_rejected (s : SettingsState) (sym : String) :
    (sym = s.player2Symbol → handlePlayer1SymbolChange s sym = (s, true)) ∧
    (sym = s.player1Symbol → handlePlayer2SymbolChange s sym = (s, true)) := by
  constructor
  · intro h
    unfold handlePlayer1SymbolChange
    rw [if_pos h]
  · intro h
    unfold handlePlayer2SymbolChange
    rw [if_pos h]

/-- The stored settings of the C9 witness (default symbols X / O). -/
def claim9Settings : SettingsState :=
  { gridSize := 3, winLength := 3, enableTimer := true, enableSounds := true,
    player1Name := "Player 1", player2Name := "Player 2", maxRounds := 5,
    player1Symbol := "X", player2Symbol := "O" }

/-- Witness for C9: attempting to set player 2's symbol to the existing
player-1 symbol `'X'` is rejected with the alert and no settings change. -/
theorem claim9_witness :
    ("X" = claim9Settings.player1Symbol) ∧
    handlePlayer2SymbolChange claim9Settings "X" = (claim9Settings, true) :=
  ⟨rfl, (claim9_duplicate_symbol_rejected claim9Settings "X").2 rfl⟩

/-- C10: a valid move (empty in-range cell, game not over) yields a board
whose tapped cell now holds the active player's symbol — and so differs from
its previous (empty) value — while every other cell keeps its prior value. -/
theorem claim10_valid_move_frame (s : GBState) (row col : Nat)
    (hwf : wellFormed s.gridSize s.board)
    (hrow : row < s.gridSize) (hcol : col < s.gridSize)
    (hgo : s.gameOver = false)
    (hempty : cellAt s.board row col = none) :
    cellAt (handleCellTap s row col).board row col =
      some s.currentPlayerState ∧
    cellAt (handleCellTap s row col).board row col ≠ cellAt s.board row col ∧
    ∀ i j, i ≠ row ∨ j ≠ col →
      cellAt (handleCellTap s row col).board i j = cellAt s.board i j := by
  have htr : cellTruthy (cellAt s.board row col) = false := by
    rw [hempty]
    rfl
  have hb := handleCellTap_board hgo htr
  refine ⟨?_, ?_, ?_⟩
  · rw [hb]
    exact cellAt_setCell_self hwf hrow hcol _
  · rw [hb, cellAt_setCell_self hwf hrow hcol _, hempty]
    simp
  · intro i j hij
    rw [hb]
    exact cellAt_setCell_other hij _

/-- Witness for C10: the first move on an empty 3×3 board sets exactly
cell (0,0). -/
theorem claim10_witness :
    (wellFormed (initialGBState 3 3).gridSize (initialGBState 3 3).board ∧
     0 < (initialGBState 3 3).gridSize ∧
     (initialGBState 3 3).gameOver = false ∧
     cellAt (initialGBState 3 3).board 0 0 = none) ∧
    (cellAt (handleCellTap (initialGBState 3 3) 0 0).board 0 0 =
       some (initialGBState 3 3).currentPlayerState ∧
     cellAt (handleCellTap (initialGBState 3 3) 0 0).board 0 0 ≠
       cellAt (initialGBState 3 3).board 0 0 ∧
     ∀ i j, i ≠ 0 ∨ j ≠ 0 →
       cellAt (handleCellTap (initialGBState 3 3) 0 0).board i j =
         cellAt (initialGBState 3 3).board i j) :=
  ⟨by decide,
   claim10_valid_move_frame (initialGBState 3 3) 0 0 (by decide) (by decide)
     (by decide) (by decide) (by decide)⟩

end TicTacToe
